import Mathlib

/-!
Shallow embedding of `src/logeagle.py` (the logeagle log tailer).

The program tails log files, buffers stripped lines, writes batches to a
parquet sink, and rotates the sink file on a time interval.  We model:

* `HandlerState` — the mutable fields of `LogFileHandler` (`last_position`,
  `writer`, `last_rotation_time`, `rotation_interval`, `buffer`); the writer
  handle is modelled as a numeric id (`writer : Option Nat`, `nextWriterId`
  supplies fresh ids in place of timestamp-based file names).
* `SinkEvent` — the observable sink operations (`ParquetWriter(...)` creation,
  `writer.close()`, `writer.write_table(...)`), so that ordering and
  handle-exclusivity properties can be stated over event traces.
* Clock: every `time.time()` call inside one handler invocation is modelled by
  a single integer parameter `now` (seconds); `sinkOk : Bool` models whether
  the sink write (`write_table`) raises, which the broad `except` swallows.
* File contents are `List Char` (the files are opened in text mode and read
  with `readlines`); `last_position` is an index into that list.
-/

namespace Logeagle

/-- Sink operations observable by the outside world, in program order:
opening a new parquet writer (with its numeric handle id), closing a writer,
and writing a batch of `(timestamp, line)` rows to a writer. -/
inductive SinkEvent where
  | openSink (id : Nat)
  | closeSink (id : Nat)
  | write (id : Nat) (batch : List (Int × String))
deriving Repr, DecidableEq

/-- The mutable state of `LogFileHandler` (src/logeagle.py lines 43-52).
`writer` is the currently open `ParquetWriter` handle (`None` initially);
`nextWriterId` is a fresh-name supply standing in for the timestamped file
names produced by `_rotate_file`. -/
structure HandlerState where
  last_position : Nat
  rotation_interval : Int
  last_rotation_time : Int
  writer : Option Nat
  nextWriterId : Nat
  buffer : List (Int × String)
deriving Repr, DecidableEq

/-- `LogFileHandler.__init__`: position 0, no writer, empty buffer,
`last_rotation_time = time.time()` (the construction time `startTime`). -/
def initState (rotation_interval : Int) (startTime : Int) : HandlerState :=
  { last_position := 0
    rotation_interval := rotation_interval
    last_rotation_time := startTime
    writer := none
    nextWriterId := 0
    buffer := [] }

/-- `LogFileHandler._should_rotate` (line 121-122):
`time.time() - self.last_rotation_time >= self.rotation_interval`. -/
def shouldRotate (s : HandlerState) (now : Int) : Bool :=
  decide (s.rotation_interval ≤ now - s.last_rotation_time)

/-- `LogFileHandler._rotate_file` (lines 124-129): opens a fresh
`ParquetWriter` (a fresh handle id here), installs it as the active writer and
resets `last_rotation_time` to the current time. -/
def rotateFile (s : HandlerState) (now : Int) : HandlerState × List SinkEvent :=
  ({ s with
      writer := some s.nextWriterId
      nextWriterId := s.nextWriterId + 1
      last_rotation_time := now },
   [SinkEvent.openSink s.nextWriterId])

/-- `LogFileHandler.write_to_parquet` (lines 95-119).  Empty lines are
dropped; otherwise `(now, line)` is appended to the buffer.  If the buffer has
reached 100 rows or `_should_rotate()` holds, the writer is (re)opened —
closing the previous one first when it exists — and the whole buffer is
written as one table.  `sinkOk = false` models `write_table` raising: the
`except` swallows the error, so `buffer.clear()` is skipped and the buffer is
retained. -/
def writeToParquet (s : HandlerState) (now : Int) (sinkOk : Bool)
    (line : String) : HandlerState × List SinkEvent :=
  if line = "" then (s, [])
  else
    let s1 : HandlerState := { s with buffer := s.buffer ++ [(now, line)] }
    if 100 ≤ s1.buffer.length || shouldRotate s1 now then
      let rotated : HandlerState × List SinkEvent :=
        if s1.writer.isNone || shouldRotate s1 now then
          let closeEvs : List SinkEvent :=
            match s1.writer with
            | some w => [SinkEvent.closeSink w]
            | none => []
          let r := rotateFile s1 now
          (r.1, closeEvs ++ r.2)
        else (s1, [])
      if sinkOk then
        ({ rotated.1 with buffer := [] },
         rotated.2 ++ [SinkEvent.write (rotated.1.writer.getD 0) rotated.1.buffer])
      else (rotated.1, rotated.2)
    else (s1, [])

/-- Feed a list of lines to `write_to_parquet` one by one (the `for line in
lines` loop of `process_new_lines`, and the loop of `generate_sample_logs`),
concatenating the emitted sink events. -/
def processLines (now : Int) (sinkOk : Bool) :
    HandlerState → List String → HandlerState × List SinkEvent
  | s, [] => (s, [])
  | s, l :: ls =>
    let r1 := writeToParquet s now sinkOk l
    let r2 := processLines now sinkOk r1.1 ls
    (r2.1, r1.2 ++ r2.2)

/-- Split a character stream the way text-mode `file.readlines()` does: each
returned line keeps its trailing newline; a final segment with no terminator
is returned as well (accumulator holds the current line reversed). -/
def splitLinesAux : List Char → List Char → List (List Char)
  | [], acc => if acc = [] then [] else [acc.reverse]
  | c :: rest, acc =>
    if c = '\n' then (acc.reverse ++ ['\n']) :: splitLinesAux rest []
    else splitLinesAux rest (c :: acc)

/-- `file.readlines()` on the bytes from the current seek position. -/
def readlines (cs : List Char) : List String :=
  (splitLinesAux cs []).map fun l => String.mk l

/-- Python whitespace for `str.strip()`. -/
def pySpace (c : Char) : Bool :=
  c = ' ' || c = '\t' || c = '\n' || c = '\r' || c = '\x0B' || c = '\x0C'

/-- Python `str.strip()`: drop leading and trailing whitespace. -/
def pyStrip (str : String) : String :=
  String.mk (((str.data.dropWhile pySpace).reverse.dropWhile pySpace).reverse)

/-- Two-digit zero padding, as the `:02d` format specifier. -/
def pad2 (n : Nat) : String :=
  if n < 10 then "0" ++ toString n else toString n

/-- The three access-log sample lines built by `generate_sample_logs`
(lines 80-85); each `random.randint(...)` result is a parameter. -/
def accessSampleLogs (now : Int) (ip1 h1 m1 sec1 page b1 : Nat)
    (ip2 h2 m2 sec2 b2 : Nat) (ip3 h3 m3 sec3 : Nat) : List String :=
  [ toString now ++ " - 192.168.1." ++ toString ip1 ++ " - - [30/Aug/2024:" ++
      pad2 h1 ++ ":" ++ pad2 m1 ++ ":" ++ pad2 sec1 ++ " +0000] \"GET /page" ++
      toString page ++ ".html HTTP/1.1\" 200 " ++ toString b1,
    toString now ++ " - 10.0.0." ++ toString ip2 ++ " - - [30/Aug/2024:" ++
      pad2 h2 ++ ":" ++ pad2 m2 ++ ":" ++ pad2 sec2 ++
      " +0000] \"POST /api/data HTTP/1.1\" 201 " ++ toString b2,
    toString now ++ " - 172.16.0." ++ toString ip3 ++ " - - [30/Aug/2024:" ++
      pad2 h3 ++ ":" ++ pad2 m3 ++ ":" ++ pad2 sec3 ++
      " +0000] \"GET /images/logo.png HTTP/1.1\" 304 0" ]

/-- The three error-log sample lines built by `generate_sample_logs`
(lines 86-91); each `random.choice(...)` result is a parameter. -/
def errorSampleLogs (now : Int) (level cause warnCause noticeMsg : String) :
    List String :=
  [ toString now ++ " - " ++ level ++ " - Error processing request: " ++ cause,
    toString now ++ " - warn - Warning: " ++ warnCause,
    toString now ++ " - notice - Notice: " ++ noticeMsg ]

/-- `LogFileHandler.process_new_lines` (lines 58-76) for one signal.
`fileExists` models `os.path.exists`; `content` is the file's current bytes;
`samples` is the list `generate_sample_logs` would feed to
`write_to_parquet` (`accessSampleLogs`/`errorSampleLogs` at concrete random
draws).  When the file exists: seek to `last_position`, `readlines()` (which
returns a trailing unterminated segment too), then either generate samples
(no new lines) or write each line stripped; in both branches
`last_position := file.tell()`, which is the seek position when it was past
end of file and the end of file otherwise — i.e. `max`. -/
def processNewLines (s : HandlerState) (fileExists : Bool) (content : List Char)
    (now : Int) (sinkOk : Bool) (samples : List String) :
    HandlerState × List SinkEvent :=
  if !fileExists then
    processLines now sinkOk s samples
  else
    let newLines := readlines (content.drop s.last_position)
    let r :=
      if newLines.isEmpty then
        processLines now sinkOk s samples
      else
        processLines now sinkOk s (newLines.map pyStrip)
    ({ r.1 with last_position := max s.last_position content.length }, r.2)

/-- Shutdown as implemented in `main` (lines 154-164): the `KeyboardInterrupt`
handler stops and joins the observer and logs; no handler buffer is drained,
no record is written, and no writer is closed. -/
def shutdown (s : HandlerState) : HandlerState × List SinkEvent :=
  (s, [])

/-- All rows ever handed to the sink in an event trace, in order. -/
def writtenRecords : List SinkEvent → List (Int × String)
  | [] => []
  | SinkEvent.write _ batch :: evs => batch ++ writtenRecords evs
  | SinkEvent.openSink _ :: evs => writtenRecords evs
  | SinkEvent.closeSink _ :: evs => writtenRecords evs

/-- The writer handle left open after applying an event trace, starting from
`w` open. -/
def trackWriter : Option Nat → List SinkEvent → Option Nat
  | w, [] => w
  | _, SinkEvent.openSink v :: evs => trackWriter (some v) evs
  | _, SinkEvent.closeSink _ :: evs => trackWriter none evs
  | w, SinkEvent.write _ _ :: evs => trackWriter w evs

/-- Checks a sink event trace starting with writer `w` open: a writer may only
be opened when none is open (close-before-open), only the currently open
writer may be closed or written to.  `sinkTraceOk w evs = true` hence implies
at most one writer is open at every point of the trace. -/
def sinkTraceOk : Option Nat → List SinkEvent → Bool
  | _, [] => true
  | some u, SinkEvent.closeSink v :: evs =>
    if u = v then sinkTraceOk none evs else false
  | some u, SinkEvent.write v _ :: evs =>
    if u = v then sinkTraceOk (some u) evs else false
  | none, SinkEvent.openSink v :: evs => sinkTraceOk (some v) evs
  | _, _ => false

/-- One iteration of the driving loop: the inputs a single
`process_new_lines` call observes from the environment. -/
structure CycleInput where
  fileExists : Bool
  content : List Char
  now : Int
  sinkOk : Bool
  samples : List String

/-- A whole run: `process_new_lines` once per cycle input (as the `while True`
loop of `main` and the watchdog `on_modified` callbacks do), concatenating all
sink events. -/
def runCycles : HandlerState → List CycleInput → HandlerState × List SinkEvent
  | s, [] => (s, [])
  | s, i :: is =>
    let r1 := processNewLines s i.fileExists i.content i.now i.sinkOk i.samples
    let r2 := runCycles r1.1 is
    (r2.1, r1.2 ++ r2.2)

/-- Newline-terminated encoding of a list of lines, as appended to a log file
by a well-behaved producer. -/
def encodeLines (ls : List (List Char)) : List Char :=
  (ls.map fun l => l ++ ['\n']).foldr (· ++ ·) []

end Logeagle
namespace Logeagle

theorem writtenRecords_append (a b : List SinkEvent) :
    writtenRecords (a ++ b) = writtenRecords a ++ writtenRecords b := by
  induction a with
  | nil => simp [writtenRecords]
  | cons e a ih => cases e <;> simp [writtenRecords, ih]

theorem writeToParquet_empty (s : HandlerState) (now : Int) (ok : Bool) :
    writeToParquet s now ok "" = (s, []) := rfl

theorem writeToParquet_noflush (s : HandlerState) (now : Int) (ok : Bool) (line : String)
    (hl : line ≠ "") (h1 : s.buffer.length + 1 < 100) (h2 : shouldRotate s now = false) :
    writeToParquet s now ok line = ({ s with buffer := s.buffer ++ [(now, line)] }, []) := by
  have h2' : ¬ (s.rotation_interval ≤ now - s.last_rotation_time) := by
    simpa [shouldRotate] using h2
  have h1' : ¬ (99 ≤ s.buffer.length) := by omega
  unfold writeToParquet
  simp [hl, shouldRotate, h1', h2']

theorem writeToParquet_flush_norot (s : HandlerState) (now : Int) (line : String) (w : Nat)
    (hl : line ≠ "") (hw : s.writer = some w) (h2 : shouldRotate s now = false)
    (h1 : 100 ≤ s.buffer.length + 1) :
    writeToParquet s now true line =
      ({ s with buffer := [] },
       [SinkEvent.write w (s.buffer ++ [(now, line)])]) := by
  have h2' : ¬ (s.rotation_interval ≤ now - s.last_rotation_time) := by
    simpa [shouldRotate] using h2
  have h1' : 99 ≤ s.buffer.length := by omega
  unfold writeToParquet
  simp [hl, shouldRotate, h1', h2', hw]

theorem writeToParquet_flush_norot_fail (s : HandlerState) (now : Int) (line : String) (w : Nat)
    (hl : line ≠ "") (hw : s.writer = some w) (h2 : shouldRotate s now = false)
    (h1 : 100 ≤ s.buffer.length + 1) :
    writeToParquet s now false line =
      ({ s with buffer := s.buffer ++ [(now, line)] }, []) := by
  have h2' : ¬ (s.rotation_interval ≤ now - s.last_rotation_time) := by
    simpa [shouldRotate] using h2
  have h1' : 99 ≤ s.buffer.length := by omega
  unfold writeToParquet
  simp [hl, shouldRotate, h1', h2', hw]

theorem writeToParquet_rot_some (s : HandlerState) (now : Int) (line : String) (w : Nat)
    (hl : line ≠ "") (hw : s.writer = some w) (h2 : shouldRotate s now = true) :
    writeToParquet s now true line =
      ({ s with buffer := [], writer := some s.nextWriterId,
                nextWriterId := s.nextWriterId + 1, last_rotation_time := now },
       [SinkEvent.closeSink w, SinkEvent.openSink s.nextWriterId,
        SinkEvent.write s.nextWriterId (s.buffer ++ [(now, line)])]) := by
  have h2' : s.rotation_interval ≤ now - s.last_rotation_time := by
    simpa [shouldRotate] using h2
  unfold writeToParquet rotateFile
  simp [hl, shouldRotate, h2', hw]

theorem writeToParquet_rot_some_fail (s : HandlerState) (now : Int) (line : String) (w : Nat)
    (hl : line ≠ "") (hw : s.writer = some w) (h2 : shouldRotate s now = true) :
    writeToParquet s now false line =
      ({ s with buffer := s.buffer ++ [(now, line)], writer := some s.nextWriterId,
                nextWriterId := s.nextWriterId + 1, last_rotation_time := now },
       [SinkEvent.closeSink w, SinkEvent.openSink s.nextWriterId]) := by
  have h2' : s.rotation_interval ≤ now - s.last_rotation_time := by
    simpa [shouldRotate] using h2
  unfold writeToParquet rotateFile
  simp [hl, shouldRotate, h2', hw]

theorem writeToParquet_rot_none (s : HandlerState) (now : Int) (line : String)
    (hl : line ≠ "") (hw : s.writer = none)
    (hc : 100 ≤ s.buffer.length + 1 ∨ shouldRotate s now = true) :
    writeToParquet s now true line =
      ({ s with buffer := [], writer := some s.nextWriterId,
                nextWriterId := s.nextWriterId + 1, last_rotation_time := now },
       [SinkEvent.openSink s.nextWriterId,
        SinkEvent.write s.nextWriterId (s.buffer ++ [(now, line)])]) := by
  unfold writeToParquet rotateFile
  rcases hc with hc | hc
  · have h1' : 99 ≤ s.buffer.length := by omega
    simp [hl, hw, h1']
  · have h2' : s.rotation_interval ≤ now - s.last_rotation_time := by
      simpa [shouldRotate] using hc
    simp [hl, hw, shouldRotate, h2']

theorem writeToParquet_rot_none_fail (s : HandlerState) (now : Int) (line : String)
    (hl : line ≠ "") (hw : s.writer = none)
    (hc : 100 ≤ s.buffer.length + 1 ∨ shouldRotate s now = true) :
    writeToParquet s now false line =
      ({ s with buffer := s.buffer ++ [(now, line)], writer := some s.nextWriterId,
                nextWriterId := s.nextWriterId + 1, last_rotation_time := now },
       [SinkEvent.openSink s.nextWriterId]) := by
  unfold writeToParquet rotateFile
  rcases hc with hc | hc
  · have h1' : 99 ≤ s.buffer.length := by omega
    simp [hl, hw, h1']
  · have h2' : s.rotation_interval ≤ now - s.last_rotation_time := by
      simpa [shouldRotate] using hc
    simp [hl, hw, shouldRotate, h2']

end Logeagle
namespace Logeagle

/-- One `write_to_parquet` call conserves records: whatever was written plus
whatever remains buffered is the old buffer plus the (non-empty) new line. -/
theorem writeToParquet_conserves (s : HandlerState) (now : Int) (ok : Bool) (line : String) :
    writtenRecords (writeToParquet s now ok line).2 ++ (writeToParquet s now ok line).1.buffer
      = s.buffer ++ (if line = "" then [] else [(now, line)]) := by
  by_cases hl : line = ""
  · simp [hl, writeToParquet_empty, writtenRecords]
  · by_cases hc : 100 ≤ s.buffer.length + 1 ∨ shouldRotate s now = true
    · cases hw : s.writer with
      | none =>
        cases ok
        · rw [writeToParquet_rot_none_fail s now line hl hw hc]
          simp [hl, writtenRecords]
        · rw [writeToParquet_rot_none s now line hl hw hc]
          simp [hl, writtenRecords]
      | some w =>
        by_cases h2 : shouldRotate s now = true
        · cases ok
          · rw [writeToParquet_rot_some_fail s now line w hl hw h2]
            simp [hl, writtenRecords]
          · rw [writeToParquet_rot_some s now line w hl hw h2]
            simp [hl, writtenRecords]
        · have h2' : shouldRotate s now = false := by
            cases h : shouldRotate s now
            · rfl
            · exact absurd h h2
          have h1 : 100 ≤ s.buffer.length + 1 := by
            rcases hc with hc | hc
            · exact hc
            · exact absurd hc h2
          cases ok
          · rw [writeToParquet_flush_norot_fail s now line w hl hw h2' h1]
            simp [hl, writtenRecords]
          · rw [writeToParquet_flush_norot s now line w hl hw h2' h1]
            simp [hl, writtenRecords]
    · push_neg at hc
      have h1 : s.buffer.length + 1 < 100 := by omega
      have h2 : shouldRotate s now = false := by
        cases h : shouldRotate s now
        · rfl
        · exact absurd h hc.2
      rw [writeToParquet_noflush s now ok line hl h1 h2]
      simp [hl, writtenRecords]

/-- `processLines` conserves records: written plus remaining-buffered rows are
the old buffer followed by the non-empty input lines, stamped `now`, in
order. -/
theorem processLines_conserves (now : Int) (ok : Bool) :
    ∀ (ls : List String) (s : HandlerState),
      writtenRecords (processLines now ok s ls).2 ++ (processLines now ok s ls).1.buffer
        = s.buffer ++ (ls.filter (fun l => l ≠ "")).map (fun l => (now, l)) := by
  intro ls
  induction ls with
  | nil => intro s; simp [processLines, writtenRecords]
  | cons l ls ih =>
    intro s
    have h1 := writeToParquet_conserves s now ok l
    by_cases hl : l = ""
    · simp only [processLines, writtenRecords_append, List.append_assoc, ih]
      simp only [hl, writeToParquet_empty] at h1 ⊢
      simp [writtenRecords] at h1
      simp [writtenRecords, h1, List.filter]
    · simp only [processLines, writtenRecords_append, List.append_assoc, ih]
      rw [← List.append_assoc, h1]
      simp [hl, List.filter]

end Logeagle
namespace Logeagle

theorem splitLinesAux_no_newline (l : List Char) :
    ∀ acc, '\n' ∉ l →
      splitLinesAux l acc = if acc = [] ∧ l = [] then [] else [acc.reverse ++ l] := by
  induction l with
  | nil =>
    intro acc _
    by_cases ha : acc = [] <;> simp [splitLinesAux, ha]
  | cons c l ih =>
    intro acc h
    rw [List.mem_cons] at h
    push_neg at h
    have hc : ¬ (c = '\n') := fun hh => h.1 hh.symm
    simp only [splitLinesAux, if_neg hc]
    rw [ih (c :: acc) h.2]
    simp

theorem splitLinesAux_terminated (l : List Char) (rest : List Char) :
    ∀ acc, '\n' ∉ l →
      splitLinesAux (l ++ '\n' :: rest) acc
        = (acc.reverse ++ l ++ ['\n']) :: splitLinesAux rest [] := by
  induction l with
  | nil => intro acc _; simp [splitLinesAux]
  | cons c l ih =>
    intro acc h
    rw [List.mem_cons] at h
    push_neg at h
    have hc : ¬ (c = '\n') := fun hh => h.1 hh.symm
    have step : splitLinesAux ((c :: l) ++ '\n' :: rest) acc
        = splitLinesAux (l ++ '\n' :: rest) (c :: acc) := by
      simp [splitLinesAux, hc]
    rw [step, ih (c :: acc) h.2]
    simp

theorem encodeLines_cons (l : List Char) (ls : List (List Char)) :
    encodeLines (l :: ls) = l ++ '\n' :: encodeLines ls := by
  simp [encodeLines]

theorem readlines_encodeLines (ls : List (List Char)) (h : ∀ l ∈ ls, '\n' ∉ l) :
    readlines (encodeLines ls) = ls.map fun l => String.mk (l ++ ['\n']) := by
  induction ls with
  | nil => rfl
  | cons l ls ih =>
    rw [encodeLines_cons]
    have h1 : readlines (l ++ '\n' :: encodeLines ls)
        = String.mk (l ++ ['\n']) :: readlines (encodeLines ls) := by
      unfold readlines
      rw [splitLinesAux_terminated l (encodeLines ls) [] (h l (List.mem_cons_self l ls))]
      simp
    rw [h1, ih fun x hx => h x (List.mem_cons_of_mem l hx)]
    simp

theorem readlines_no_newline (l : List Char) (hne : l ≠ []) (h : '\n' ∉ l) :
    readlines l = [String.mk l] := by
  unfold readlines
  rw [splitLinesAux_no_newline l [] h]
  simp [hne]

theorem pySpace_newline : pySpace '\n' = true := rfl

theorem pyStrip_mk (l : List Char) :
    pyStrip (String.mk l) = String.mk (((l.dropWhile pySpace).reverse.dropWhile pySpace).reverse) := rfl

theorem pyStrip_newline (l : List Char) :
    pyStrip (String.mk (l ++ ['\n'])) = pyStrip (String.mk l) := by
  rw [pyStrip_mk, pyStrip_mk, List.dropWhile_append]
  by_cases hd : List.dropWhile pySpace l = []
  · rw [hd]
    rfl
  · have hd' : (List.dropWhile pySpace l).isEmpty = false := by
      simpa [List.isEmpty_iff] using hd
    rw [hd']
    simp [List.reverse_append, List.dropWhile_cons, pySpace_newline]

theorem ne_empty_of_length_ne (s : String) (h : s.length ≠ 0) : s ≠ "" := by
  intro he
  rw [he] at h
  exact h rfl

theorem errorSampleLogs_ne_empty (now : Int) (a b c d : String) :
    ∀ l ∈ errorSampleLogs now a b c d, l ≠ "" := by
  have h3 : (" - " : String).length = 3 := rfl
  have h4 : (" - warn - Warning: " : String).length = 19 := rfl
  have h5 : (" - notice - Notice: " : String).length = 20 := rfl
  intro l hl
  simp only [errorSampleLogs, List.mem_cons, List.mem_singleton] at hl
  rcases hl with rfl | rfl | rfl | h
  · apply ne_empty_of_length_ne
    simp only [String.length_append]
    omega
  · apply ne_empty_of_length_ne
    simp only [String.length_append]
    omega
  · apply ne_empty_of_length_ne
    simp only [String.length_append]
    omega
  · cases h

end Logeagle
namespace Logeagle

/-- While the buffer stays below 100 and no rotation is due, `processLines`
only appends to the buffer: nothing is written, opened or closed. -/
theorem processLines_noflush (now : Int) (ok : Bool) :
    ∀ (ls : List String) (s : HandlerState),
      s.buffer.length + ls.length < 100 → shouldRotate s now = false →
      processLines now ok s ls
        = ({ s with buffer :=
              s.buffer ++ (ls.filter (fun l => l ≠ "")).map (fun l => (now, l)) }, []) := by
  intro ls
  induction ls with
  | nil => intro s _ _; simp [processLines]
  | cons l ls ih =>
    intro s hlen hrot
    simp only [List.length_cons] at hlen
    by_cases hl : l = ""
    · simp only [processLines, hl, writeToParquet_empty]
      rw [ih s (by omega) hrot]
      simp [List.filter_cons, hl]
    · have h1 : s.buffer.length + 1 < 100 := by omega
      simp only [processLines]
      rw [writeToParquet_noflush s now ok l hl h1 hrot]
      have hrot' : shouldRotate { s with buffer := s.buffer ++ [(now, l)] } now = false := hrot
      rw [ih { s with buffer := s.buffer ++ [(now, l)] } (by simp; omega) hrot']
      simp [List.filter_cons, hl]

theorem trackWriter_append (a b : List SinkEvent) :
    ∀ w, trackWriter w (a ++ b) = trackWriter (trackWriter w a) b := by
  induction a with
  | nil => intro w; simp [trackWriter]
  | cons e a ih => intro w; cases e <;> cases w <;> simp [trackWriter, ih]

theorem sinkTraceOk_append (a b : List SinkEvent) :
    ∀ w, sinkTraceOk w (a ++ b)
      = (sinkTraceOk w a && sinkTraceOk (trackWriter w a) b) := by
  induction a with
  | nil => intro w; simp [sinkTraceOk, trackWriter]
  | cons e a ih =>
    intro w
    cases e with
    | openSink v => cases w <;> simp [sinkTraceOk, trackWriter, ih]
    | closeSink v =>
      cases w with
      | none => simp [sinkTraceOk]
      | some u => by_cases huv : u = v <;> simp [sinkTraceOk, trackWriter, huv, ih]
    | write v batch =>
      cases w with
      | none => simp [sinkTraceOk]
      | some u => by_cases huv : u = v <;> simp [sinkTraceOk, trackWriter, huv, ih]

/-- One `write_to_parquet` call emits a well-formed sink trace from the
current writer, and the trace tracks the resulting writer. -/
theorem writeToParquet_trace (s : HandlerState) (now : Int) (ok : Bool) (line : String) :
    sinkTraceOk s.writer (writeToParquet s now ok line).2 = true ∧
    trackWriter s.writer (writeToParquet s now ok line).2
      = (writeToParquet s now ok line).1.writer := by
  by_cases hl : line = ""
  · simp [hl, writeToParquet_empty, sinkTraceOk, trackWriter]
  · by_cases hc : 100 ≤ s.buffer.length + 1 ∨ shouldRotate s now = true
    · cases hw : s.writer with
      | none =>
        cases ok
        · rw [writeToParquet_rot_none_fail s now line hl hw hc]
          simp [hw, sinkTraceOk, trackWriter]
        · rw [writeToParquet_rot_none s now line hl hw hc]
          simp [hw, sinkTraceOk, trackWriter]
      | some w =>
        by_cases h2 : shouldRotate s now = true
        · cases ok
          · rw [writeToParquet_rot_some_fail s now line w hl hw h2]
            simp [hw, sinkTraceOk, trackWriter]
          · rw [writeToParquet_rot_some s now line w hl hw h2]
            simp [hw, sinkTraceOk, trackWriter]
        · have h2' : shouldRotate s now = false := by
            cases h : shouldRotate s now
            · rfl
            · exact absurd h h2
          have h1 : 100 ≤ s.buffer.length + 1 := by
            rcases hc with hc | hc
            · exact hc
            · exact absurd hc h2
          cases ok
          · rw [writeToParquet_flush_norot_fail s now line w hl hw h2' h1]
            simp [hw, sinkTraceOk, trackWriter]
          · rw [writeToParquet_flush_norot s now line w hl hw h2' h1]
            simp [hw, sinkTraceOk, trackWriter]
    · push_neg at hc
      have h1 : s.buffer.length + 1 < 100 := by omega
      have h2 : shouldRotate s now = false := by
        cases h : shouldRotate s now
        · rfl
        · exact absurd h hc.2
      rw [writeToParquet_noflush s now ok line hl h1 h2]
      simp [sinkTraceOk, trackWriter]

theorem processLines_trace (now : Int) (ok : Bool) :
    ∀ (ls : List String) (s : HandlerState),
      sinkTraceOk s.writer (processLines now ok s ls).2 = true ∧
      trackWriter s.writer (processLines now ok s ls).2
        = (processLines now ok s ls).1.writer := by
  intro ls
  induction ls with
  | nil => intro s; simp [processLines, sinkTraceOk, trackWriter]
  | cons l ls ih =>
    intro s
    obtain ⟨h1, h2⟩ := writeToParquet_trace s now ok l
    obtain ⟨h3, h4⟩ := ih (writeToParquet s now ok l).1
    constructor
    · simp only [processLines]
      rw [sinkTraceOk_append, h2]
      simp [h1, h3]
    · simp only [processLines]
      rw [trackWriter_append, h2, h4]

theorem processNewLines_trace (s : HandlerState) (fe : Bool) (content : List Char)
    (now : Int) (ok : Bool) (samples : List String) :
    sinkTraceOk s.writer (processNewLines s fe content now ok samples).2 = true ∧
    trackWriter s.writer (processNewLines s fe content now ok samples).2
      = (processNewLines s fe content now ok samples).1.writer := by
  unfold processNewLines
  cases fe with
  | false => simpa using processLines_trace now ok samples s
  | true =>
    by_cases he : (readlines (content.drop s.last_position)).isEmpty
    · simpa [he] using processLines_trace now ok samples s
    · simpa [he] using
        processLines_trace now ok ((readlines (content.drop s.last_position)).map pyStrip) s

theorem runCycles_trace : ∀ (inputs : List CycleInput) (s : HandlerState),
    sinkTraceOk s.writer (runCycles s inputs).2 = true ∧
    trackWriter s.writer (runCycles s inputs).2 = (runCycles s inputs).1.writer := by
  intro inputs
  induction inputs with
  | nil => intro s; simp [runCycles, sinkTraceOk, trackWriter]
  | cons i is ih =>
    intro s
    obtain ⟨h1, h2⟩ := processNewLines_trace s i.fileExists i.content i.now i.sinkOk i.samples
    obtain ⟨h3, h4⟩ := ih (processNewLines s i.fileExists i.content i.now i.sinkOk i.samples).1
    constructor
    · simp only [runCycles]
      rw [sinkTraceOk_append, h2]
      simp [h1, h3]
    · simp only [runCycles]
      rw [trackWriter_append, h2, h4]

end Logeagle
namespace Logeagle

theorem processNewLines_eq_of_lines (s : HandlerState) (content : List Char)
    (now : Int) (ok : Bool) (samples : List String) (nl : List String)
    (hnl : readlines (content.drop s.last_position) = nl) (hne : nl ≠ []) :
    processNewLines s true content now ok samples
      = ({ (processLines now ok s (nl.map pyStrip)).1 with
            last_position := max s.last_position content.length },
         (processLines now ok s (nl.map pyStrip)).2) := by
  unfold processNewLines
  simp [hnl, List.isEmpty_iff, hne]

theorem processNewLines_eq_no_lines (s : HandlerState) (content : List Char)
    (now : Int) (ok : Bool) (samples : List String)
    (hnl : readlines (content.drop s.last_position) = []) :
    processNewLines s true content now ok samples
      = ({ (processLines now ok s samples).1 with
            last_position := max s.last_position content.length },
         (processLines now ok s samples).2) := by
  unfold processNewLines
  simp [hnl]

/-- C1 counterexample: the spec scenario fails on the code.  After
`"a\nb\n"` has been consumed (cursor 4), the file holds `"a\nb\nc"` with the
trailing `"c"` unterminated; the claim says the next read yields no record and
leaves the cursor at 4, but `readlines()` returns the partial line, so `"c"`
is buffered as a record and `file.tell()` moves the cursor to 5. -/
theorem C1_counterexample :
    (processNewLines { initState 3600 0 with last_position := 4 } true
        ("a\nb\nc".data) 5 true []).1.buffer = [((5 : Int), "c")] ∧
    (processNewLines { initState 3600 0 with last_position := 4 } true
        ("a\nb\nc".data) 5 true []).1.last_position = 5 := by
  decide

/-- C1 amended: a trailing partial line (bytes after the last newline, here an
entire unterminated suffix `frag`) IS consumed in the same read cycle: the
cursor advances to the end of the file, and the stripped partial content is
ingested as a record (unless stripping leaves it empty, in which case it is
silently dropped); it is not retried on a later cycle. -/
theorem C1_amended (s : HandlerState) (old frag : List Char) (now : Int)
    (hpos : s.last_position = old.length) (hnn : '\n' ∉ frag) (hne : frag ≠ []) :
    (processNewLines s true (old ++ frag) now true []).1.last_position
        = old.length + frag.length ∧
    writtenRecords (processNewLines s true (old ++ frag) now true []).2
        ++ (processNewLines s true (old ++ frag) now true []).1.buffer
      = s.buffer ++ (if pyStrip (String.mk frag) = "" then []
          else [(now, pyStrip (String.mk frag))]) := by
  have hdrop : (old ++ frag).drop s.last_position = frag := by
    rw [hpos]
    exact List.drop_left old frag
  have hrl : readlines ((old ++ frag).drop s.last_position) = [String.mk frag] := by
    rw [hdrop]
    exact readlines_no_newline frag hne hnn
  rw [processNewLines_eq_of_lines s (old ++ frag) now true [] [String.mk frag] hrl
      (by simp)]
  constructor
  · simp only [List.length_append]
    rw [hpos]
    exact Nat.max_eq_right (Nat.le_add_right _ _)
  · have hcons := processLines_conserves now true ([String.mk frag].map pyStrip) s
    simp only [List.map_cons, List.map_nil] at hcons ⊢
    rw [hcons]
    by_cases hns : pyStrip (String.mk frag) = "" <;> simp [List.filter_cons, hns]

/-- C1 amended witness at the spec scenario input. -/
theorem C1_amended_witness :
    (processNewLines { initState 3600 0 with last_position := 4 } true
        ("a\nb\n".data ++ "c".data) 0 true []).1.last_position
        = ("a\nb\n".data).length + ("c".data).length ∧
    writtenRecords (processNewLines { initState 3600 0 with last_position := 4 } true
        ("a\nb\n".data ++ "c".data) 0 true []).2
        ++ (processNewLines { initState 3600 0 with last_position := 4 } true
        ("a\nb\n".data ++ "c".data) 0 true []).1.buffer
      = ({ initState 3600 0 with last_position := 4 } : HandlerState).buffer
          ++ (if pyStrip (String.mk ("c".data)) = "" then []
              else [((0 : Int), pyStrip (String.mk ("c".data)))]) :=
  C1_amended { initState 3600 0 with last_position := 4 } ("a\nb\n".data) ("c".data) 0
    (by decide) (by decide) (by decide)

end Logeagle
namespace Logeagle

/-- C2 counterexample: with `rotation_interval = 0` every buffered record is
flushed at once, so the sink trace is immediately observable.  The file gains
the two newline-terminated lines `"  a  "` and `""`; the claim demands the
sink receive exactly those lines unaltered, but the code hands the sink the
stripped line `"a"` and drops the empty line entirely. -/
theorem C2_counterexample :
    writtenRecords (processNewLines (initState 0 0) true ("  a  \n\n".data) 0 true []).2
      = [((0 : Int), "a")] ∧
    (processNewLines (initState 0 0) true ("  a  \n\n".data) 0 true []).1.buffer = [] := by
  decide

/-- C2 amended: for newline-terminated lines appended between two signals, the
records ingested for the sink (those already written plus those still
buffered) are exactly the appended lines in order, except that each line is
whitespace-stripped and lines that are empty after stripping are omitted. -/
theorem C2_amended (s : HandlerState) (old : List Char) (ls : List (List Char))
    (now : Int) (ok : Bool) (samples : List String)
    (hpos : s.last_position = old.length)
    (hnl : ∀ l ∈ ls, '\n' ∉ l) (hne : ls ≠ []) :
    writtenRecords (processNewLines s true (old ++ encodeLines ls) now ok samples).2
        ++ (processNewLines s true (old ++ encodeLines ls) now ok samples).1.buffer
      = s.buffer ++ ((ls.map fun l => pyStrip (String.mk l)).filter
          (fun l => l ≠ "")).map (fun l => (now, l)) := by
  have hdrop : (old ++ encodeLines ls).drop s.last_position = encodeLines ls := by
    rw [hpos]
    exact List.drop_left old (encodeLines ls)
  have hrl : readlines ((old ++ encodeLines ls).drop s.last_position)
      = ls.map fun l => String.mk (l ++ ['\n']) := by
    rw [hdrop]
    exact readlines_encodeLines ls hnl
  have hmapne : (ls.map fun l => String.mk (l ++ ['\n'])) ≠ [] := by
    simpa using hne
  have hmm : (ls.map fun l => String.mk (l ++ ['\n'])).map pyStrip
      = ls.map fun l => pyStrip (String.mk l) := by
    rw [List.map_map]
    exact List.map_congr_left fun l _ => pyStrip_newline l
  have hcons := processLines_conserves now ok (ls.map fun l => pyStrip (String.mk l)) s
  rw [processNewLines_eq_of_lines s (old ++ encodeLines ls) now ok samples _ hrl hmapne, hmm]
  simpa using hcons

/-- C2 amended witness: appending `"  a  \n"` and `"b\n"` ingests the stripped
records `"a"` and `"b"`. -/
theorem C2_amended_witness :
    writtenRecords (processNewLines (initState 3600 0) true
        ([] ++ encodeLines ["  a  ".data, "b".data]) 0 true []).2
        ++ (processNewLines (initState 3600 0) true
        ([] ++ encodeLines ["  a  ".data, "b".data]) 0 true []).1.buffer
      = (initState 3600 0).buffer
          ++ (((["  a  ".data, "b".data].map fun l => pyStrip (String.mk l)).filter
              (fun l => l ≠ "")).map (fun l => ((0 : Int), l))) :=
  C2_amended (initState 3600 0) [] ["  a  ".data, "b".data] 0 true []
    (by decide) (by decide) (by decide)

/-- C3 counterexample: a signal for a source whose file has no new bytes
(cursor 2 = end of `"a\n"`) is NOT a no-op: `process_new_lines` falls into the
`generate_sample_logs` branch, which appends three synthetic records to the
buffer (the claim demands zero new records). -/
theorem C3_counterexample :
    (processNewLines { initState 3600 0 with last_position := 2 } true ("a\n".data) 5 true
        (errorSampleLogs 5 "error" "File not found" "High CPU usage" "Cache cleared")
      ).1.buffer.length = 3 ∧
    (processNewLines { initState 3600 0 with last_position := 2 } true ("a\n".data) 5 true
        (errorSampleLogs 5 "error" "File not found" "High CPU usage" "Cache cleared")
      ).2 = [] ∧
    (processNewLines { initState 3600 0 with last_position := 2 } true ("a\n".data) 5 true
        (errorSampleLogs 5 "error" "File not found" "High CPU usage" "Cache cleared")
      ).1.last_position = 2 := by
  decide

/-- C3 amended: a signal that finds no new bytes leaves the cursor unchanged
and performs no sink operations (while no flush is due), but it is not a
no-op on the buffer: the three generated sample-log records are appended to
it. -/
theorem C3_amended (s : HandlerState) (content : List Char) (now : Int)
    (lv cause wmsg nmsg : String)
    (hnew : content.length ≤ s.last_position)
    (hbuf : s.buffer.length + 3 < 100)
    (hrot : shouldRotate s now = false) :
    (processNewLines s true content now true
        (errorSampleLogs now lv cause wmsg nmsg)).2 = [] ∧
    (processNewLines s true content now true
        (errorSampleLogs now lv cause wmsg nmsg)).1.last_position = s.last_position ∧
    (processNewLines s true content now true
        (errorSampleLogs now lv cause wmsg nmsg)).1.buffer
      = s.buffer ++ (errorSampleLogs now lv cause wmsg nmsg).map (fun l => (now, l)) := by
  have hdrop : content.drop s.last_position = [] := List.drop_eq_nil_of_le hnew
  have hrl : readlines (content.drop s.last_position) = [] := by
    rw [hdrop]
    rfl
  rw [processNewLines_eq_no_lines s content now true _ hrl]
  have hlen : (errorSampleLogs now lv cause wmsg nmsg).length = 3 := rfl
  have hpl := processLines_noflush now true (errorSampleLogs now lv cause wmsg nmsg) s
      (by rw [hlen]; omega) hrot
  rw [hpl]
  have hfil : (errorSampleLogs now lv cause wmsg nmsg).filter (fun l => l ≠ "")
      = errorSampleLogs now lv cause wmsg nmsg := by
    apply List.filter_eq_self.mpr
    intro a ha
    simpa using errorSampleLogs_ne_empty now lv cause wmsg nmsg a ha
  rw [hfil]
  refine ⟨rfl, ?_, rfl⟩
  exact Nat.max_eq_left hnew

/-- C3 amended witness at a concrete idle signal. -/
theorem C3_amended_witness :
    (processNewLines { initState 3600 0 with last_position := 2 } true ("a\n".data) 5 true
        (errorSampleLogs 5 "error" "File not found" "High CPU usage" "Cache cleared")).2 = [] ∧
    (processNewLines { initState 3600 0 with last_position := 2 } true ("a\n".data) 5 true
        (errorSampleLogs 5 "error" "File not found" "High CPU usage" "Cache cleared")
      ).1.last_position = ({ initState 3600 0 with last_position := 2 } : HandlerState).last_position ∧
    (processNewLines { initState 3600 0 with last_position := 2 } true ("a\n".data) 5 true
        (errorSampleLogs 5 "error" "File not found" "High CPU usage" "Cache cleared")
      ).1.buffer
      = ({ initState 3600 0 with last_position := 2 } : HandlerState).buffer
          ++ (errorSampleLogs 5 "error" "File not found" "High CPU usage" "Cache cleared").map
              (fun l => ((5 : Int), l)) :=
  C3_amended { initState 3600 0 with last_position := 2 } ("a\n".data) 5
    "error" "File not found" "High CPU usage" "Cache cleared"
    (by decide) (by decide) (by decide)

end Logeagle
namespace Logeagle

/-- A state with writer 0 open, one buffered row, and rotation due
(`rotation_interval = 0`). -/
def rotDueState : HandlerState :=
  { initState 0 0 with writer := some 0, nextWriterId := 1, buffer := [((0 : Int), "x")] }

/-- A state with writer 0 open and a pending buffered row, rotation not due. -/
def pendingState : HandlerState :=
  { initState 3600 0 with writer := some 0, nextWriterId := 1, buffer := [((0 : Int), "x")] }

/-- A state with writer 0 open and 99 buffered rows, rotation not due. -/
def fullBufState : HandlerState :=
  { initState 3600 0 with
      writer := some 0
      nextWriterId := 1
      buffer := List.replicate 99 ((0 : Int), "x") }

/-- C4 counterexample: in `rotDueState` writer 0 is open with one buffered
record and rotation is due.  The claim says the batch accumulated before the
rotation decision is committed to the OLD sink (writer 0) before the new sink
opens; the code instead closes writer 0 without writing to it, opens writer
1, and writes the whole pre-rotation batch to writer 1. -/
theorem C4_counterexample :
    (writeToParquet rotDueState 0 true "y").2
      = [SinkEvent.closeSink 0, SinkEvent.openSink 1,
         SinkEvent.write 1 [((0 : Int), "x"), ((0 : Int), "y")]] := by
  decide

/-- C4 amended: when rotation is due at a flush, the old sink is closed
first (with no final write to it), the successor sink is opened, and the
entire batch accumulated before the rotation decision is then written to the
NEW (post-rotation) sink. -/
theorem C4_amended (s : HandlerState) (now : Int) (line : String) (w : Nat)
    (hl : line ≠ "") (hw : s.writer = some w) (hrot : shouldRotate s now = true) :
    (writeToParquet s now true line).2
      = [SinkEvent.closeSink w, SinkEvent.openSink s.nextWriterId,
         SinkEvent.write s.nextWriterId (s.buffer ++ [(now, line)])] ∧
    (writeToParquet s now true line).1.writer = some s.nextWriterId ∧
    (writeToParquet s now true line).1.buffer = [] := by
  rw [writeToParquet_rot_some s now line w hl hw hrot]
  exact ⟨rfl, rfl, rfl⟩

/-- C4 amended witness at the counterexample input. -/
theorem C4_amended_witness :
    (writeToParquet rotDueState 0 true "y").2
      = [SinkEvent.closeSink 0, SinkEvent.openSink rotDueState.nextWriterId,
         SinkEvent.write rotDueState.nextWriterId
           (rotDueState.buffer ++ [((0 : Int), "y")])] ∧
    (writeToParquet rotDueState 0 true "y").1.writer = some rotDueState.nextWriterId ∧
    (writeToParquet rotDueState 0 true "y").1.buffer = [] :=
  C4_amended rotDueState 0 "y" 0 (by decide) (by decide) (by decide)

/-- C5 counterexample: at shutdown in `pendingState` (one buffered record,
writer 0 open) the claim says the buffer is drained, written, and the sink
closed; the code's interrupt handler only stops the observer: no sink event
is emitted, the record stays buffered (hence is lost), and the writer is
never closed. -/
theorem C5_counterexample :
    (shutdown pendingState).2 = [] ∧
    (shutdown pendingState).1.buffer = [((0 : Int), "x")] ∧
    (shutdown pendingState).1.writer = some 0 := by
  decide

/-- C5 amended: orderly shutdown performs no flush and no close at all: for
every handler state, shutdown writes no records to the sink, emits no sink
events, leaves any buffered-but-unflushed records in the buffer (discarding
them when the process exits), and leaves the sink handle open. -/
theorem C5_amended (s : HandlerState) :
    writtenRecords (shutdown s).2 = [] ∧ (shutdown s).2 = [] ∧
    (shutdown s).1.buffer = s.buffer ∧ (shutdown s).1.writer = s.writer :=
  ⟨rfl, rfl, rfl, rfl⟩

/-- C6 counterexample: in `fullBufState` writer 0 is open, 99 records are
buffered, and the time threshold has not passed (interval 3600, elapsed 0).
Appending the 100th record triggers a flush, but — against the claim that
reaching the batch count forces rotation — no rotation happens: the batch is
written to the same writer 0, which stays open, and the rotation clock is
untouched. -/
theorem C6_counterexample :
    (writeToParquet fullBufState 0 true "y").2
      = [SinkEvent.write 0 (List.replicate 99 ((0 : Int), "x") ++ [((0 : Int), "y")])] ∧
    (writeToParquet fullBufState 0 true "y").1.writer = some 0 ∧
    (writeToParquet fullBufState 0 true "y").1.last_rotation_time = 0 := by
  decide

/-- C6 amended: at a flush with a sink already open, rotation is decided by
elapsed time alone: if the interval has not elapsed, the batch (even a full
100-record batch) is written to the current sink with no rotation; if the
interval has elapsed, the sink is rotated (close, then open) and the batch
goes to the new sink.  Record count alone never forces a rotation. -/
theorem C6_amended (s : HandlerState) (now : Int) (line : String) (w : Nat)
    (hl : line ≠ "") (hw : s.writer = some w) :
    (shouldRotate s now = false → 100 ≤ s.buffer.length + 1 →
      (writeToParquet s now true line).2
        = [SinkEvent.write w (s.buffer ++ [(now, line)])] ∧
      (writeToParquet s now true line).1.writer = some w ∧
      (writeToParquet s now true line).1.last_rotation_time = s.last_rotation_time) ∧
    (shouldRotate s now = true →
      (writeToParquet s now true line).2
        = [SinkEvent.closeSink w, SinkEvent.openSink s.nextWriterId,
           SinkEvent.write s.nextWriterId (s.buffer ++ [(now, line)])]) := by
  constructor
  · intro h2 h1
    rw [writeToParquet_flush_norot s now line w hl hw h2 h1]
    exact ⟨rfl, hw, rfl⟩
  · intro h2
    rw [writeToParquet_rot_some s now line w hl hw h2]

/-- C6 amended witness at the counterexample input (count threshold reached,
time threshold not: flush without rotation). -/
theorem C6_amended_witness :
    (writeToParquet fullBufState 0 true "y").2
      = [SinkEvent.write 0 (fullBufState.buffer ++ [((0 : Int), "y")])] ∧
    (writeToParquet fullBufState 0 true "y").1.writer = some 0 ∧
    (writeToParquet fullBufState 0 true "y").1.last_rotation_time
      = fullBufState.last_rotation_time :=
  (C6_amended fullBufState 0 "y" 0 (by decide) (by decide)).1 (by decide) (by decide)

/-- C7 counterexample: the cursor is at 10 but the file shrank to 4 bytes
(`"abc\n"`).  The claim demands the cursor be reset to 0 and the whole file
re-read; instead the cursor stays at 10 (exceeding the file length), nothing
is written from the file, and three sample records are generated. -/
theorem C7_counterexample :
    (processNewLines { initState 3600 0 with last_position := 10 } true ("abc\n".data) 5 true
        (errorSampleLogs 5 "crit" "Database connection failed" "Low disk space"
          "Config file updated")).1.last_position = 10 ∧
    writtenRecords (processNewLines { initState 3600 0 with last_position := 10 } true
        ("abc\n".data) 5 true
        (errorSampleLogs 5 "crit" "Database connection failed" "Low disk space"
          "Config file updated")).2 = [] ∧
    (processNewLines { initState 3600 0 with last_position := 10 } true ("abc\n".data) 5 true
        (errorSampleLogs 5 "crit" "Database connection failed" "Low disk space"
          "Config file updated")).1.buffer.length = 3 := by
  decide

/-- C7 amended: there is no truncation detection and no cursor reset: on
every read cycle on an existing file the cursor becomes
`max last_position content.length`.  It is monotonically non-decreasing, but
when the file has shrunk below the cursor it keeps exceeding the file's
length instead of resetting to 0, and the file is not re-read. -/
theorem C7_amended (s : HandlerState) (content : List Char) (now : Int) (ok : Bool)
    (samples : List String) :
    (processNewLines s true content now ok samples).1.last_position
        = max s.last_position content.length ∧
    s.last_position ≤ (processNewLines s true content now ok samples).1.last_position := by
  have h1 : (processNewLines s true content now ok samples).1.last_position
      = max s.last_position content.length := by
    unfold processNewLines
    simp
  exact ⟨h1, by rw [h1]; exact Nat.le_max_left _ _⟩

end Logeagle
namespace Logeagle

/-- C8: at-most-one-active-sink invariant.  Over any whole run of the handler
(any sequence of signals, file contents, clock values, sink outcomes and
sample draws, starting from the initial state), the emitted sink-event trace
passes `sinkTraceOk none`: a writer is only ever opened when no writer is
open (strict close-before-open), and only the currently open writer is
written to or closed — hence at most one sink handle is open at any point. -/
theorem C8_at_most_one_sink (rotation_interval startTime : Int)
    (inputs : List CycleInput) :
    sinkTraceOk none (runCycles (initState rotation_interval startTime) inputs).2
      = true :=
  (runCycles_trace inputs (initState rotation_interval startTime)).1

/-- C9 counterexample: in `rotDueState` rotation is due and the sink write
fails (`sinkOk = false`).  The claim's parenthetical "state unchanged on
error" is violated: although the batch is retained in the buffer, the
rotation still happened before the failed write — writer 0 was closed, writer
1 opened, and the rotation clock advanced; moreover the retained batch is not
retried on the very next cycle, since the flush condition has been reset. -/
theorem C9_counterexample :
    (writeToParquet rotDueState 0 false "y").1.buffer
      = [((0 : Int), "x"), ((0 : Int), "y")] ∧
    (writeToParquet rotDueState 0 false "y").1.writer = some 1 ∧
    (writeToParquet rotDueState 0 false "y").2
      = [SinkEvent.closeSink 0, SinkEvent.openSink 1] := by
  decide

/-- C9 amended: a flush always hands the sink the entire buffer, never a
proper subset (the written records are all-or-nothing); after a successful
flush the buffer is empty; and on a failed sink write nothing is written and
the buffer still contains every record of the batch — but the rotation state
is NOT unchanged on error: a due rotation still closes the old sink, opens a
new one and resets the rotation clock before the failing write, and the
retained batch is retried at the next flush trigger, not unconditionally on
the next cycle. -/
theorem C9_amended (s : HandlerState) (now : Int) (line : String) (hl : line ≠ "") :
    (∀ ok, writtenRecords (writeToParquet s now ok line).2 = [] ∨
      writtenRecords (writeToParquet s now ok line).2 = s.buffer ++ [(now, line)]) ∧
    (writtenRecords (writeToParquet s now false line).2 = [] ∧
      (writeToParquet s now false line).1.buffer = s.buffer ++ [(now, line)]) ∧
    ((100 ≤ s.buffer.length + 1 ∨ shouldRotate s now = true) →
      (writeToParquet s now true line).1.buffer = [] ∧
      writtenRecords (writeToParquet s now true line).2 = s.buffer ++ [(now, line)]) := by
  have hfail : writtenRecords (writeToParquet s now false line).2 = [] ∧
      (writeToParquet s now false line).1.buffer = s.buffer ++ [(now, line)] := by
    by_cases hc : 100 ≤ s.buffer.length + 1 ∨ shouldRotate s now = true
    · cases hw : s.writer with
      | none =>
        rw [writeToParquet_rot_none_fail s now line hl hw hc]
        exact ⟨rfl, rfl⟩
      | some w =>
        by_cases h2 : shouldRotate s now = true
        · rw [writeToParquet_rot_some_fail s now line w hl hw h2]
          exact ⟨rfl, rfl⟩
        · have h2' : shouldRotate s now = false := by
            cases h : shouldRotate s now
            · rfl
            · exact absurd h h2
          have h1 : 100 ≤ s.buffer.length + 1 := by
            rcases hc with hc | hc
            · exact hc
            · exact absurd hc h2
          rw [writeToParquet_flush_norot_fail s now line w hl hw h2' h1]
          exact ⟨rfl, rfl⟩
    · push_neg at hc
      have h1 : s.buffer.length + 1 < 100 := by omega
      have h2 : shouldRotate s now = false := by
        cases h : shouldRotate s now
        · rfl
        · exact absurd h hc.2
      rw [writeToParquet_noflush s now false line hl h1 h2]
      exact ⟨rfl, rfl⟩
  have hsucc : (100 ≤ s.buffer.length + 1 ∨ shouldRotate s now = true) →
      (writeToParquet s now true line).1.buffer = [] ∧
      writtenRecords (writeToParquet s now true line).2 = s.buffer ++ [(now, line)] := by
    intro hc
    cases hw : s.writer with
    | none =>
      rw [writeToParquet_rot_none s now line hl hw hc]
      constructor
      · rfl
      · simp [writtenRecords]
    | some w =>
      by_cases h2 : shouldRotate s now = true
      · rw [writeToParquet_rot_some s now line w hl hw h2]
        constructor
        · rfl
        · simp [writtenRecords]
      · have h2' : shouldRotate s now = false := by
          cases h : shouldRotate s now
          · rfl
          · exact absurd h h2
        have h1 : 100 ≤ s.buffer.length + 1 := by
          rcases hc with hc | hc
          · exact hc
          · exact absurd hc h2
        rw [writeToParquet_flush_norot s now line w hl hw h2' h1]
        constructor
        · rfl
        · simp [writtenRecords]
  refine ⟨?_, hfail, hsucc⟩
  intro ok
  cases ok with
  | false => exact Or.inl hfail.1
  | true =>
    by_cases hc : 100 ≤ s.buffer.length + 1 ∨ shouldRotate s now = true
    · exact Or.inr (hsucc hc).2
    · push_neg at hc
      have h1 : s.buffer.length + 1 < 100 := by omega
      have h2 : shouldRotate s now = false := by
        cases h : shouldRotate s now
        · rfl
        · exact absurd h hc.2
      rw [writeToParquet_noflush s now true line hl h1 h2]
      exact Or.inl rfl

/-- C9 amended witness: successful full-batch flush at a concrete input. -/
theorem C9_amended_witness :
    (writeToParquet rotDueState 0 true "y").1.buffer = [] ∧
    writtenRecords (writeToParquet rotDueState 0 true "y").2
      = rotDueState.buffer ++ [((0 : Int), "y")] :=
  (C9_amended rotDueState 0 "y" (by decide)).2.2 (by decide)

/-- C10: the flush threshold is the fixed constant 100.  While fewer than 100
records are buffered and rotation is not due, processing lines performs no
sink operation at all and the writer handle is unchanged (in particular it
stays `none` before the first flush, so no output file is created); when a
non-empty line makes the buffer reach exactly 100 — or when rotation is due —
the entire buffer is written as one batch and the buffer is emptied. -/
theorem C10_fixed_flush_threshold (s : HandlerState) (now : Int) (ls : List String)
    (line : String) :
    (shouldRotate s now = false → s.buffer.length + ls.length < 100 →
      (processLines now true s ls).2 = [] ∧
      (processLines now true s ls).1.writer = s.writer ∧
      (processLines now true s ls).1.buffer
        = s.buffer ++ (ls.filter (fun l => l ≠ "")).map (fun l => (now, l))) ∧
    (shouldRotate s now = false → line ≠ "" → s.buffer.length + 1 = 100 →
      (writeToParquet s now true line).1.buffer = [] ∧
      writtenRecords (writeToParquet s now true line).2 = s.buffer ++ [(now, line)]) ∧
    (shouldRotate s now = true → line ≠ "" →
      (writeToParquet s now true line).1.buffer = [] ∧
      writtenRecords (writeToParquet s now true line).2 = s.buffer ++ [(now, line)]) := by
  refine ⟨?_, ?_, ?_⟩
  · intro hrot hlen
    rw [processLines_noflush now true ls s hlen hrot]
    exact ⟨rfl, rfl, rfl⟩
  · intro hrot hl hlen
    have hc : 100 ≤ s.buffer.length + 1 ∨ shouldRotate s now = true := Or.inl (by omega)
    cases hw : s.writer with
    | none =>
      rw [writeToParquet_rot_none s now line hl hw hc]
      exact ⟨rfl, by simp [writtenRecords]⟩
    | some w =>
      rw [writeToParquet_flush_norot s now line w hl hw hrot (by omega)]
      exact ⟨rfl, by simp [writtenRecords]⟩
  · intro hrot hl
    cases hw : s.writer with
    | none =>
      rw [writeToParquet_rot_none s now line hl hw (Or.inr hrot)]
      exact ⟨rfl, by simp [writtenRecords]⟩
    | some w =>
      rw [writeToParquet_rot_some s now line w hl hw hrot]
      exact ⟨rfl, by simp [writtenRecords]⟩

/-- C10 witness: the 100th record flushes the whole buffer in one batch at a
concrete input (writer open, 99 rows buffered, time threshold not passed). -/
theorem C10_fixed_flush_threshold_witness :
    (writeToParquet fullBufState 0 true "y").1.buffer = [] ∧
    writtenRecords (writeToParquet fullBufState 0 true "y").2
      = fullBufState.buffer ++ [((0 : Int), "y")] :=
  (C10_fixed_flush_threshold fullBufState 0 [] "y").2.1 (by decide) (by decide) (by decide)

end Logeagle
